import Mathlib

/-!
Verification of the multi-agent parallel-environment step-loop contract
(`gem/multiagent/parallel_env.py` and its concrete test environment
`SimpleParallelEnv` from `tests/test_multiagent/test_parallel_env.py`).

Modelling conventions:
* Python `dict` values are association lists `List (String × α)` whose
  operations (`dictInsert`, `dictGet`, `dictKeys`) mirror Python dict
  semantics: insertion preserves order of first insertion, `get` with a
  default never fails.
* A raised Python exception is an `Except.error` carrying a `PyError`.
* Python `float` rewards only ever take the exact values 1.0, -1.0 and 0.0
  here, so they are modelled as `Int`.
* `sorted` over a Python `set` of strings is `List.insertionSort (· ≤ ·)`
  applied to the deduplicated underlying list (on distinct elements every
  sort agrees with Python's lexicographic code-point order).
-/

/-- The kinds of exception the code raises. -/
inductive PyError where
  | valueError (msg : String)
  | notImplementedError
deriving DecidableEq, Repr

/-- A value stored in a per-agent `info` dict (`{"step": n}`, `{"initial": True}`). -/
inductive InfoVal where
  | boolV (b : Bool)
  | natV (n : Nat)
deriving DecidableEq, Repr

/-- A per-agent info dict. -/
abbrev Info := List (String × InfoVal)

/-- Python `d[k] = v`: update in place if the key exists, else append. -/
def dictInsert (d : List (String × α)) (k : String) (v : α) : List (String × α) :=
  if d.any (fun p => decide (p.1 = k)) then
    d.map (fun p => if p.1 = k then (k, v) else p)
  else
    d ++ [(k, v)]

/-- Python `d.get(k, default)`. -/
def dictGet (d : List (String × α)) (k : String) (dflt : α) : α :=
  match d.find? (fun p => decide (p.1 = k)) with
  | some p => p.2
  | none => dflt

/-- Python `d.keys()` (in insertion order). -/
def dictKeys (d : List (String × α)) : List String :=
  d.map Prod.fst

/-- Build a dict from scratch by a `for`-loop of single-key assignments. -/
def buildDictBy (l : List α) (key : α → String) (val : α → β) : List (String × β) :=
  l.foldl (fun d x => dictInsert d (key x) (val x)) []

/-- Python `sorted` on a collection of distinct strings. -/
def sortStrings (l : List String) : List String :=
  List.insertionSort (· ≤ ·) l

/-- Python `repr` of a string (no escaping needed for agent identifiers). -/
def pyStrRepr (s : String) : String :=
  (Char.ofNat 39).toString ++ s ++ (Char.ofNat 39).toString

/-- Python `str` of a list of strings, e.g. `['agent1', 'agent2']`. -/
def pyListRepr (l : List String) : String :=
  "[" ++ String.intercalate ", " (l.map pyStrRepr) ++ "]"

/-- The missing-agents clause of the mismatch error message. -/
def missingClause (l : List String) : String :=
  "Missing actions for agents: " ++ pyListRepr l

/-- The extra-agents clause of the mismatch error message. -/
def extraClause (l : List String) : String :=
  "Actions provided for non-active agents: " ++ pyListRepr l

/-- Embeds `ParallelEnv._validate_actions`: compares the action dict's key set with
the active-agents set; on mismatch raises `ValueError` whose message joins a
sorted missing-agents clause and a sorted extra-agents clause. -/
def validateActions (actionKeys : List String) (agents : List String) :
    Except PyError Unit :=
  if (∀ a ∈ actionKeys, a ∈ agents) ∧ (∀ a ∈ agents, a ∈ actionKeys) then
    Except.ok ()
  else
    let missing := (agents.filter (fun a => decide (a ∉ actionKeys))).dedup
    let extra := (actionKeys.filter (fun a => decide (a ∉ agents))).dedup
    let errorParts :=
      (if missing.isEmpty then []
       else [missingClause (sortStrings missing)]) ++
      (if extra.isEmpty then []
       else [extraClause (sortStrings extra)])
    Except.error (PyError.valueError (String.intercalate ". " errorParts))

/-- Embeds `ParallelEnv._remove_dead_agents`: keep only agents whose termination and
truncation flags (defaulting to `False` when absent) are both false. -/
def removeDeadAgents (agents : List String)
    (terminations truncations : List (String × Bool)) : List String :=
  agents.filter (fun agent =>
    !(dictGet terminations agent false || dictGet truncations agent false))

/-- Embeds `ParallelEnv.state`: the default implementation raises
`NotImplementedError` for any concrete environment state, touching nothing. -/
def ParallelEnv.state (env : α) : α × Except PyError Empty :=
  (env, Except.error PyError.notImplementedError)

/-- The concrete test environment's mutable state
(`SimpleParallelEnv.__init__` fields). -/
structure SimpleParallelEnv where
  possible_agents : List String
  agents : List String
  step_count : Nat
  max_steps : Nat
  terminations : List (String × Bool)
  truncations : List (String × Bool)
  rewards : List (String × Int)
  infos : List (String × Info)
deriving DecidableEq, Repr

/-- Embeds `SimpleParallelEnv.__init__`. -/
def SimpleParallelEnv.init : SimpleParallelEnv :=
  let possible := ["agent1", "agent2", "agent3"]
  { possible_agents := possible
    agents := possible
    step_count := 0
    max_steps := 10
    terminations := buildDictBy possible id (fun _ => false)
    truncations := buildDictBy possible id (fun _ => false)
    rewards := buildDictBy possible id (fun _ => (0 : Int))
    infos := buildDictBy possible id (fun _ => ([] : Info)) }

/-- The observation string `f"Step {n+1} result for {agent} after {action}"`. -/
def obsFor (step_count : Nat) (agent action : String) : String :=
  "Step " ++ toString (step_count + 1) ++ " result for " ++ agent ++ " after " ++ action

/-- The reward branch of `SimpleParallelEnv.step`. -/
def rewardFor (action : String) : Int :=
  if action = "good" then 1 else if action = "bad" then -1 else 0

/-- Embeds `SimpleParallelEnv.step`: validate the action dict, compute the five
per-agent result dicts, bump the step counter, store the new signal state and
prune dead agents before returning. -/
def SimpleParallelEnv.step (env : SimpleParallelEnv)
    (actions : List (String × String)) :
    Except PyError (SimpleParallelEnv × List (String × String) ×
      List (String × Int) × List (String × Bool) × List (String × Bool) ×
      List (String × Info)) :=
  match validateActions (dictKeys actions) env.agents with
  | Except.error e => Except.error e
  | Except.ok _ =>
    let observations := buildDictBy actions Prod.fst
      (fun p => obsFor env.step_count p.1 p.2)
    let rewards := buildDictBy actions Prod.fst (fun p => rewardFor p.2)
    let terminations := buildDictBy actions Prod.fst
      (fun p => decide (p.2 = "terminate"))
    let infos := buildDictBy actions Prod.fst
      (fun _ => [("step", InfoVal.natV (env.step_count + 1))])
    let step_count := env.step_count + 1
    let truncations := buildDictBy env.agents id
      (fun _ => decide (step_count ≥ env.max_steps))
    let env1 := { env with
      step_count := step_count
      terminations := terminations
      truncations := truncations
      rewards := rewards
      infos := infos }
    let env2 := { env1 with
      agents := removeDeadAgents env1.agents env1.terminations env1.truncations }
    Except.ok (env2, observations, rewards, terminations, truncations, infos)

/-- Embeds `ParallelEnv.reset`: the body of the abstract default is a bare
`raise NotImplementedError`, and the abstractmethod decorator does not
suppress that body when it is invoked explicitly, e.g. via `super()`. -/
def ParallelEnv.reset (_env : α) (_seed : Option Nat) : Except PyError Unit :=
  Except.error PyError.notImplementedError

/-- Embeds `SimpleParallelEnv.reset`: its first statement is
`super().reset(seed)`, which resolves to `ParallelEnv.reset` and raises
`NotImplementedError`, so the remainder — restoring the roster from a fresh
copy of `possible_agents`, zeroing the step counter and handing out initial
observations and infos — is unreachable and every `reset` call fails. -/
def SimpleParallelEnv.reset (env : SimpleParallelEnv) (seed : Option Nat) :
    Except PyError
      (SimpleParallelEnv × List (String × String) × List (String × Info)) :=
  match ParallelEnv.reset env seed with
  | Except.error e => Except.error e
  | Except.ok _ =>
    let env1 := { env with agents := env.possible_agents, step_count := 0 }
    let observations := buildDictBy env1.agents id
      (fun agent => "Initial observation for " ++ agent)
    let infos := buildDictBy env1.agents id
      (fun _ => [("initial", InfoVal.boolV true)])
    Except.ok (env1, observations, infos)

/-- States of `SimpleParallelEnv` reachable from construction by any sequence
of successful `reset` and successful `step` calls. -/
inductive Reachable : SimpleParallelEnv → Prop where
  | con : Reachable SimpleParallelEnv.init
  | res (env env' : SimpleParallelEnv) (seed : Option Nat) out :
      Reachable env → env.reset seed = Except.ok (env', out) → Reachable env'
  | stp (env env' : SimpleParallelEnv) (actions : List (String × String)) out :
      Reachable env → env.step actions = Except.ok (env', out) → Reachable env'

/-- The action dict of the termination scenario (`test_termination`). -/
def termActions : List (String × String) :=
  [("agent1", "terminate"), ("agent2", "good"), ("agent3", "good")]

/-- The action dict of the good/bad/neutral scenario
(`test_step_with_all_agents`, `test_truncation`). -/
def gbnActions : List (String × String) :=
  [("agent1", "good"), ("agent2", "bad"), ("agent3", "neutral")]

/-- Termination scenario: the environment after `step(termActions)` from the
constructor state. -/
def envAfterTerm : SimpleParallelEnv :=
  { possible_agents := ["agent1", "agent2", "agent3"]
    agents := ["agent2", "agent3"]
    step_count := 1
    max_steps := 10
    terminations := [("agent1", true), ("agent2", false), ("agent3", false)]
    truncations := [("agent1", false), ("agent2", false), ("agent3", false)]
    rewards := [("agent1", 0), ("agent2", 1), ("agent3", 1)]
    infos := [("agent1", [("step", InfoVal.natV 1)]),
              ("agent2", [("step", InfoVal.natV 1)]),
              ("agent3", [("step", InfoVal.natV 1)])] }

/-- Termination scenario: the observations returned by `step(termActions)`. -/
def obsAfterTerm : List (String × String) :=
  [("agent1", "Step 1 result for agent1 after terminate"),
   ("agent2", "Step 1 result for agent2 after good"),
   ("agent3", "Step 1 result for agent3 after good")]

/-- Termination scenario: the rewards returned by `step(termActions)`. -/
def rewAfterTerm : List (String × Int) :=
  [("agent1", 0), ("agent2", 1), ("agent3", 1)]

/-- Termination scenario: the termination flags returned by
`step(termActions)`. -/
def termsAfterTerm : List (String × Bool) :=
  [("agent1", true), ("agent2", false), ("agent3", false)]

/-- Termination scenario: the truncation flags returned by
`step(termActions)`. -/
def truncsAfterTerm : List (String × Bool) :=
  [("agent1", false), ("agent2", false), ("agent3", false)]

/-- Termination scenario: the infos returned by `step(termActions)`. -/
def infosAfterTerm : List (String × Info) :=
  [("agent1", [("step", InfoVal.natV 1)]),
   ("agent2", [("step", InfoVal.natV 1)]),
   ("agent3", [("step", InfoVal.natV 1)])]

/-- Truncation scenario: the constructor state with max-steps 2. -/
def envTrunc0 : SimpleParallelEnv :=
  { SimpleParallelEnv.init with max_steps := 2 }

/-- Truncation scenario: the environment after the first `step(gbnActions)`. -/
def envTrunc1 : SimpleParallelEnv :=
  { possible_agents := ["agent1", "agent2", "agent3"]
    agents := ["agent1", "agent2", "agent3"]
    step_count := 1
    max_steps := 2
    terminations := [("agent1", false), ("agent2", false), ("agent3", false)]
    truncations := [("agent1", false), ("agent2", false), ("agent3", false)]
    rewards := [("agent1", 1), ("agent2", -1), ("agent3", 0)]
    infos := [("agent1", [("step", InfoVal.natV 1)]),
              ("agent2", [("step", InfoVal.natV 1)]),
              ("agent3", [("step", InfoVal.natV 1)])] }

/-- Truncation scenario: the environment after the second `step(gbnActions)`. -/
def envTrunc2 : SimpleParallelEnv :=
  { possible_agents := ["agent1", "agent2", "agent3"]
    agents := []
    step_count := 2
    max_steps := 2
    terminations := [("agent1", false), ("agent2", false), ("agent3", false)]
    truncations := [("agent1", true), ("agent2", true), ("agent3", true)]
    rewards := [("agent1", 1), ("agent2", -1), ("agent3", 0)]
    infos := [("agent1", [("step", InfoVal.natV 2)]),
              ("agent2", [("step", InfoVal.natV 2)]),
              ("agent3", [("step", InfoVal.natV 2)])] }

/-! ### Dictionary lemmas -/

theorem mem_dictKeys_dictInsert (d : List (String × α)) (k : String) (v : α)
    (a : String) : a ∈ dictKeys (dictInsert d k v) ↔ a = k ∨ a ∈ dictKeys d := by
  unfold dictInsert
  by_cases h : d.any (fun p => decide (p.1 = k)) = true
  · rw [if_pos h]
    have hk : k ∈ dictKeys d := by
      rcases List.any_eq_true.mp h with ⟨p, hp, hpk⟩
      have : p.1 = k := of_decide_eq_true hpk
      exact this ▸ List.mem_map_of_mem Prod.fst hp
    have hkeys : dictKeys (d.map (fun p => if p.1 = k then (k, v) else p)) =
        dictKeys d := by
      unfold dictKeys
      rw [List.map_map]
      refine List.map_congr_left ?_
      intro p _
      by_cases hpk : p.1 = k
      · simp [hpk]
      · simp [hpk]
    rw [hkeys]
    constructor
    · exact Or.inr
    · rintro (rfl | ha)
      · exact hk
      · exact ha
  · rw [if_neg h]
    unfold dictKeys
    rw [List.map_append]
    simp [or_comm]

theorem mem_dictKeys_foldl (l : List α) (key : α → String) (val : α → β)
    (d0 : List (String × β)) (a : String) :
    a ∈ dictKeys (l.foldl (fun d x => dictInsert d (key x) (val x)) d0) ↔
      a ∈ dictKeys d0 ∨ a ∈ l.map key := by
  induction l generalizing d0 with
  | nil => simp
  | cons x xs ih =>
    rw [List.foldl_cons, ih, mem_dictKeys_dictInsert]
    simp only [List.map_cons, List.mem_cons]
    tauto

theorem mem_dictKeys_buildDictBy (l : List α) (key : α → String) (val : α → β)
    (a : String) : a ∈ dictKeys (buildDictBy l key val) ↔ a ∈ l.map key := by
  unfold buildDictBy
  rw [mem_dictKeys_foldl]
  simp [dictKeys]

theorem dictGet_of_not_mem_keys (d : List (String × α)) (a : String) (dflt : α)
    (h : a ∉ dictKeys d) : dictGet d a dflt = dflt := by
  unfold dictGet
  have : d.find? (fun p => decide (p.1 = a)) = none := by
    rw [List.find?_eq_none]
    intro p hp
    simp only [decide_eq_true_eq]
    intro hpa
    exact h (hpa ▸ List.mem_map_of_mem Prod.fst hp)
  rw [this]

theorem mem_removeDeadAgents (agents : List String)
    (terminations truncations : List (String × Bool)) (a : String) :
    a ∈ removeDeadAgents agents terminations truncations ↔
      a ∈ agents ∧ dictGet terminations a false = false ∧
        dictGet truncations a false = false := by
  unfold removeDeadAgents
  rw [List.mem_filter]
  simp [Bool.or_eq_false_iff]

/-! ### Sorting lemmas -/

theorem sortStrings_sorted (l : List String) :
    (sortStrings l).Sorted (· ≤ ·) :=
  List.sorted_insertionSort _ l

theorem mem_sortStrings (l : List String) (a : String) :
    a ∈ sortStrings l ↔ a ∈ l :=
  List.mem_insertionSort _

/-! ### Validation lemmas -/

theorem validateActions_ok_iff (actionKeys agents : List String) :
    validateActions actionKeys agents = Except.ok () ↔
      (∀ a, a ∈ actionKeys ↔ a ∈ agents) := by
  unfold validateActions
  by_cases h : (∀ a ∈ actionKeys, a ∈ agents) ∧ (∀ a ∈ agents, a ∈ actionKeys)
  · rw [if_pos h]
    simp only [true_iff]
    exact fun a => ⟨fun ha => h.1 a ha, fun ha => h.2 a ha⟩
  · rw [if_neg h]
    simp only [reduceCtorEq, false_iff]
    intro hall
    exact h ⟨fun a ha => (hall a).mp ha, fun a ha => (hall a).mpr ha⟩

/-! ### Step characterization -/

theorem step_eq_of_validate_ok (env : SimpleParallelEnv)
    (actions : List (String × String))
    (h : validateActions (dictKeys actions) env.agents = Except.ok ()) :
    env.step actions = Except.ok
      ({ env with
          step_count := env.step_count + 1
          terminations := buildDictBy actions Prod.fst
            (fun p => decide (p.2 = "terminate"))
          truncations := buildDictBy env.agents id
            (fun _ => decide (env.step_count + 1 ≥ env.max_steps))
          rewards := buildDictBy actions Prod.fst (fun p => rewardFor p.2)
          infos := buildDictBy actions Prod.fst
            (fun _ => [("step", InfoVal.natV (env.step_count + 1))])
          agents := removeDeadAgents env.agents
            (buildDictBy actions Prod.fst (fun p => decide (p.2 = "terminate")))
            (buildDictBy env.agents id
              (fun _ => decide (env.step_count + 1 ≥ env.max_steps))) },
        buildDictBy actions Prod.fst (fun p => obsFor env.step_count p.1 p.2),
        buildDictBy actions Prod.fst (fun p => rewardFor p.2),
        buildDictBy actions Prod.fst (fun p => decide (p.2 = "terminate")),
        buildDictBy env.agents id
          (fun _ => decide (env.step_count + 1 ≥ env.max_steps)),
        buildDictBy actions Prod.fst
          (fun _ => [("step", InfoVal.natV (env.step_count + 1))])) := by
  unfold SimpleParallelEnv.step
  rw [h]

theorem step_error_of_validate_error (env : SimpleParallelEnv)
    (actions : List (String × String)) (e : PyError)
    (h : validateActions (dictKeys actions) env.agents = Except.error e) :
    env.step actions = Except.error e := by
  unfold SimpleParallelEnv.step
  rw [h]

theorem step_ok_validate (env : SimpleParallelEnv)
    (actions : List (String × String)) (out : SimpleParallelEnv ×
      List (String × String) × List (String × Int) × List (String × Bool) ×
      List (String × Bool) × List (String × Info))
    (h : env.step actions = Except.ok out) :
    validateActions (dictKeys actions) env.agents = Except.ok () := by
  cases hv : validateActions (dictKeys actions) env.agents with
  | error e => rw [step_error_of_validate_error env actions e hv] at h; exact absurd h (by simp)
  | ok u => cases u; rfl

theorem step_ok_components (env env' : SimpleParallelEnv)
    (actions : List (String × String)) (obs : List (String × String))
    (rew : List (String × Int)) (terms truncs : List (String × Bool))
    (infs : List (String × Info))
    (h : env.step actions = Except.ok (env', obs, rew, terms, truncs, infs)) :
    validateActions (dictKeys actions) env.agents = Except.ok () ∧
    obs = buildDictBy actions Prod.fst (fun p => obsFor env.step_count p.1 p.2) ∧
    rew = buildDictBy actions Prod.fst (fun p => rewardFor p.2) ∧
    terms = buildDictBy actions Prod.fst (fun p => decide (p.2 = "terminate")) ∧
    truncs = buildDictBy env.agents id
      (fun _ => decide (env.step_count + 1 ≥ env.max_steps)) ∧
    infs = buildDictBy actions Prod.fst
      (fun _ => [("step", InfoVal.natV (env.step_count + 1))]) ∧
    env'.agents = removeDeadAgents env.agents terms truncs ∧
    env'.possible_agents = env.possible_agents ∧
    env'.step_count = env.step_count + 1 := by
  have hv := step_ok_validate env actions _ h
  rw [step_eq_of_validate_ok env actions hv] at h
  simp only [Except.ok.injEq, Prod.mk.injEq] at h
  obtain ⟨henv, hobs, hrew, hterms, htruncs, hinfs⟩ := h
  subst henv hobs hrew hterms htruncs hinfs
  exact ⟨hv, rfl, rfl, rfl, rfl, rfl, rfl, rfl, rfl⟩

theorem sortStrings_isEmpty (l : List String) :
    (sortStrings l).isEmpty = l.isEmpty := by
  rcases l with _ | ⟨x, xs⟩
  · rfl
  · have hx : x ∈ sortStrings (x :: xs) :=
      (mem_sortStrings (x :: xs) x).mpr (List.mem_cons_self x xs)
    rcases hs : sortStrings (x :: xs) with _ | ⟨y, ys⟩
    · rw [hs] at hx
      exact absurd hx (List.not_mem_nil x)
    · rfl

theorem step_preserves_possible_agents (env env' : SimpleParallelEnv)
    (actions : List (String × String))
    (out : List (String × String) × List (String × Int) × List (String × Bool) ×
      List (String × Bool) × List (String × Info))
    (h : env.step actions = Except.ok (env', out)) :
    env'.possible_agents = env.possible_agents := by
  obtain ⟨obs, rew, terms, truncs, infs⟩ := out
  exact (step_ok_components env env' actions obs rew terms truncs infs h).2.2.2.2.2.2.2.1

theorem step_agents_sublist (env env' : SimpleParallelEnv)
    (actions : List (String × String))
    (out : List (String × String) × List (String × Int) × List (String × Bool) ×
      List (String × Bool) × List (String × Info))
    (h : env.step actions = Except.ok (env', out)) :
    env'.agents.Sublist env.agents := by
  obtain ⟨obs, rew, terms, truncs, infs⟩ := out
  have hag :=
    (step_ok_components env env' actions obs rew terms truncs infs h).2.2.2.2.2.2.1
  rw [hag]
  exact List.filter_sublist env.agents

/-- C1: whenever the action dict's key set differs from the active-agents set,
`step` raises a `ValueError` whose message contains the sorted list of active
agents missing an action (when any), the sorted list of non-active agents
given an action (when any), and joins both clauses when both mismatches
occur. -/
theorem step_mismatch_error_message (env : SimpleParallelEnv)
    (actions : List (String × String))
    (h : ¬ ((∀ a ∈ dictKeys actions, a ∈ env.agents) ∧
            (∀ a ∈ env.agents, a ∈ dictKeys actions))) :
    ∃ missing extra : List String,
      missing.Sorted (· ≤ ·) ∧
      extra.Sorted (· ≤ ·) ∧
      (∀ a, a ∈ missing ↔ a ∈ env.agents ∧ a ∉ dictKeys actions) ∧
      (∀ a, a ∈ extra ↔ a ∈ dictKeys actions ∧ a ∉ env.agents) ∧
      (missing ≠ [] ∨ extra ≠ []) ∧
      env.step actions = Except.error (PyError.valueError
        (String.intercalate ". "
          ((if missing.isEmpty then [] else [missingClause missing]) ++
           (if extra.isEmpty then [] else [extraClause extra])))) := by
  refine ⟨sortStrings ((env.agents.filter
      (fun a => decide (a ∉ dictKeys actions))).dedup),
    sortStrings (((dictKeys actions).filter
      (fun a => decide (a ∉ env.agents))).dedup),
    sortStrings_sorted _, sortStrings_sorted _, ?_, ?_, ?_, ?_⟩
  · intro a
    simp [mem_sortStrings, List.mem_dedup, List.mem_filter]
  · intro a
    simp [mem_sortStrings, List.mem_dedup, List.mem_filter]
  · rcases not_and_or.mp h with hA | hB
    · right
      push_neg at hA
      obtain ⟨a, ha, hna⟩ := hA
      refine List.ne_nil_of_mem (a := a) ?_
      simp [mem_sortStrings, List.mem_dedup, List.mem_filter]
      exact ⟨ha, hna⟩
    · left
      push_neg at hB
      obtain ⟨a, ha, hna⟩ := hB
      refine List.ne_nil_of_mem (a := a) ?_
      simp [mem_sortStrings, List.mem_dedup, List.mem_filter]
      exact ⟨ha, hna⟩
  · have hv : validateActions (dictKeys actions) env.agents =
        Except.error (PyError.valueError
          (String.intercalate ". "
            ((if ((env.agents.filter
                    (fun a => decide (a ∉ dictKeys actions))).dedup).isEmpty
              then []
              else [missingClause (sortStrings ((env.agents.filter
                (fun a => decide (a ∉ dictKeys actions))).dedup))]) ++
             (if (((dictKeys actions).filter
                    (fun a => decide (a ∉ env.agents))).dedup).isEmpty
              then []
              else [extraClause (sortStrings (((dictKeys actions).filter
                (fun a => decide (a ∉ env.agents))).dedup))])))) := by
      unfold validateActions
      rw [if_neg h]
    rw [sortStrings_isEmpty, sortStrings_isEmpty]
    exact step_error_of_validate_error env actions _ hv

/-- C2: on every successful `step` call, an agent active at entry is absent
from the active-agents sequence when `step` returns exactly when its
termination or truncation flag is true in this tick's returned results; agents
with both flags false remain present. The pruning is part of every successful
`step` before it returns. -/
theorem step_prunes_flagged_agents (env env' : SimpleParallelEnv)
    (actions : List (String × String)) (obs : List (String × String))
    (rew : List (String × Int)) (terms truncs : List (String × Bool))
    (infs : List (String × Info))
    (h : env.step actions = Except.ok (env', obs, rew, terms, truncs, infs)) :
    ∀ a ∈ env.agents,
      (a ∈ env'.agents ↔
        dictGet terms a false = false ∧ dictGet truncs a false = false) := by
  have hag :=
    (step_ok_components env env' actions obs rew terms truncs infs h).2.2.2.2.2.2.1
  intro a ha
  rw [hag, mem_removeDeadAgents]
  simp [ha]

/-- C3: contrary to the claim, `reset` never restores the roster: its first
statement `super().reset(seed)` resolves to `ParallelEnv.reset`, whose body
raises `NotImplementedError` unconditionally, so every `reset` call — here
evaluated at the freshly constructed environment and also for every state
and seed — fails before touching active-agents or returning observations
and infos. The repository's own `test_reset` expects the call to succeed,
so the code contradicts its tests. -/
theorem reset_raises_not_implemented :
    SimpleParallelEnv.init.reset none =
      Except.error PyError.notImplementedError ∧
    ∀ (env : SimpleParallelEnv) (seed : Option Nat),
      env.reset seed = Except.error PyError.notImplementedError :=
  ⟨rfl, fun _ _ => rfl⟩

/-- C4: on every successful `step` call, all five returned mappings have key
sets equal to the active-agents set as it existed at the start of the call,
before pruning. -/
theorem step_result_keys_match_entry_agents (env env' : SimpleParallelEnv)
    (actions : List (String × String)) (obs : List (String × String))
    (rew : List (String × Int)) (terms truncs : List (String × Bool))
    (infs : List (String × Info))
    (h : env.step actions = Except.ok (env', obs, rew, terms, truncs, infs)) :
    ∀ a,
      (a ∈ dictKeys obs ↔ a ∈ env.agents) ∧
      (a ∈ dictKeys rew ↔ a ∈ env.agents) ∧
      (a ∈ dictKeys terms ↔ a ∈ env.agents) ∧
      (a ∈ dictKeys truncs ↔ a ∈ env.agents) ∧
      (a ∈ dictKeys infs ↔ a ∈ env.agents) := by
  obtain ⟨hv, hobs, hrew, hterms, htruncs, hinfs, -, -, -⟩ :=
    step_ok_components env env' actions obs rew terms truncs infs h
  have hset := (validateActions_ok_iff _ _).mp hv
  subst hobs hrew hterms htruncs hinfs
  intro a
  refine ⟨?_, ?_, ?_, ?_, ?_⟩
  · rw [mem_dictKeys_buildDictBy]
    exact hset a
  · rw [mem_dictKeys_buildDictBy]
    exact hset a
  · rw [mem_dictKeys_buildDictBy]
    exact hset a
  · rw [mem_dictKeys_buildDictBy, List.map_id]
  · rw [mem_dictKeys_buildDictBy]
    exact hset a

/-- C5: when the action dict's key set differs from the active-agents set,
`step` fails fast: it returns exactly the validation error (the same error
`_validate_actions` raises) and produces no successor state at all — in this
embedding the environment value held by the caller is untouched, so
active-agents, the step counter and the four signal mappings are exactly as
before the call, with no partial-failure mode. -/
theorem step_mismatch_fail_fast (env : SimpleParallelEnv)
    (actions : List (String × String))
    (h : ¬ ((∀ a ∈ dictKeys actions, a ∈ env.agents) ∧
            (∀ a ∈ env.agents, a ∈ dictKeys actions))) :
    (∃ e, validateActions (dictKeys actions) env.agents = Except.error e ∧
      env.step actions = Except.error e) ∧
    ∀ out, env.step actions ≠ Except.ok out := by
  have hv : validateActions (dictKeys actions) env.agents = Except.error
      (PyError.valueError (String.intercalate ". "
        ((if ((env.agents.filter
                (fun a => decide (a ∉ dictKeys actions))).dedup).isEmpty
          then []
          else [missingClause (sortStrings ((env.agents.filter
            (fun a => decide (a ∉ dictKeys actions))).dedup))]) ++
         (if (((dictKeys actions).filter
                (fun a => decide (a ∉ env.agents))).dedup).isEmpty
          then []
          else [extraClause (sortStrings (((dictKeys actions).filter
            (fun a => decide (a ∉ env.agents))).dedup))])))) := by
    unfold validateActions
    rw [if_neg h]
  have hstep := step_error_of_validate_error env actions _ hv
  refine ⟨⟨_, hv, hstep⟩, ?_⟩
  intro out hok
  rw [hstep] at hok
  exact absurd hok (by simp)

/-- C6: in the concrete environment with active agents agent1-3 (the
constructor state), `step(termActions)` marks exactly `agent1` terminated,
leaves active-agents `["agent2", "agent3"]`, and a subsequent `step` succeeds
exactly when its action dict's key set equals `{agent2, agent3}`, raising the
mismatch error otherwise. -/
theorem termination_scenario :
    SimpleParallelEnv.init.step termActions =
      Except.ok (envAfterTerm, obsAfterTerm, rewAfterTerm, termsAfterTerm,
        truncsAfterTerm, infosAfterTerm) ∧
    dictGet termsAfterTerm "agent1" false = true ∧
    dictGet termsAfterTerm "agent2" false = false ∧
    dictGet termsAfterTerm "agent3" false = false ∧
    envAfterTerm.agents = ["agent2", "agent3"] ∧
    (∀ actions2 : List (String × String),
      (∃ out, envAfterTerm.step actions2 = Except.ok out) ↔
        ((∀ a ∈ dictKeys actions2, a ∈ (["agent2", "agent3"] : List String)) ∧
         (∀ a ∈ (["agent2", "agent3"] : List String), a ∈ dictKeys actions2))) := by
  refine ⟨rfl, rfl, rfl, rfl, rfl, ?_⟩
  intro actions2
  constructor
  · rintro ⟨out, hok⟩
    have hv := step_ok_validate envAfterTerm actions2 out hok
    have hset := (validateActions_ok_iff _ _).mp hv
    constructor
    · intro a ha
      exact (hset a).mp ha
    · intro a ha
      exact (hset a).mpr ha
  · rintro ⟨h1, h2⟩
    have hv : validateActions (dictKeys actions2) envAfterTerm.agents =
        Except.ok () := by
      rw [validateActions_ok_iff]
      intro a
      exact ⟨fun ha => h1 a ha, fun ha => h2 a ha⟩
    exact ⟨_, step_eq_of_validate_ok envAfterTerm actions2 hv⟩

/-- C7: the claim's reset conjunct fails on the code: `reset` raises
`NotImplementedError` via `super().reset(seed)` and returns no observations
or infos at all (first conjunct evaluates the code at that failing input).
The step-loop half does hold from the three-agent state with max-steps 2:
the first `step(gbnActions)` yields rewards 1, -1 and 0, all truncation
flags false and all three agents still active; the second `step(gbnActions)`
yields all truncation flags true. -/
theorem truncation_scenario :
    SimpleParallelEnv.init.reset none =
      Except.error PyError.notImplementedError ∧
    envTrunc0.step gbnActions = Except.ok (envTrunc1,
      [("agent1", "Step 1 result for agent1 after good"),
       ("agent2", "Step 1 result for agent2 after bad"),
       ("agent3", "Step 1 result for agent3 after neutral")],
      [("agent1", 1), ("agent2", -1), ("agent3", 0)],
      [("agent1", false), ("agent2", false), ("agent3", false)],
      [("agent1", false), ("agent2", false), ("agent3", false)],
      [("agent1", [("step", InfoVal.natV 1)]),
       ("agent2", [("step", InfoVal.natV 1)]),
       ("agent3", [("step", InfoVal.natV 1)])]) ∧
    envTrunc1.agents = ["agent1", "agent2", "agent3"] ∧
    envTrunc1.step gbnActions = Except.ok (envTrunc2,
      [("agent1", "Step 2 result for agent1 after good"),
       ("agent2", "Step 2 result for agent2 after bad"),
       ("agent3", "Step 2 result for agent3 after neutral")],
      [("agent1", 1), ("agent2", -1), ("agent3", 0)],
      [("agent1", false), ("agent2", false), ("agent3", false)],
      [("agent1", true), ("agent2", true), ("agent3", true)],
      [("agent1", [("step", InfoVal.natV 2)]),
       ("agent2", [("step", InfoVal.natV 2)]),
       ("agent3", [("step", InfoVal.natV 2)])]) :=
  ⟨rfl, rfl, rfl, rfl⟩

/-- C8: in every reachable state the active-agents sequence is an
order-preserving subsequence of the possible-agents roster, and every
successful `step` shrinks it to a subsequence of its previous value (never
reordering or re-adding agents). -/
theorem active_agents_follow_roster_order (env : SimpleParallelEnv)
    (h : Reachable env) :
    env.agents.Sublist env.possible_agents ∧
    (∀ actions env' out, env.step actions = Except.ok (env', out) →
      env'.agents.Sublist env.agents) := by
  constructor
  · induction h with
    | con => exact List.Sublist.refl _
    | res env env' seed out hr hres ih =>
      simp [SimpleParallelEnv.reset, ParallelEnv.reset] at hres
    | stp env env' actions out hr hstep ih =>
      have h1 := step_agents_sublist env env' actions out hstep
      have h2 := step_preserves_possible_agents env env' actions out hstep
      rw [h2]
      exact h1.trans ih
  · intro actions env' out hstep
    exact step_agents_sublist env env' actions out hstep

/-- C9: the default `state()` raises `NotImplementedError` and leaves the
environment exactly as it was. -/
theorem default_state_raises_not_implemented {α : Type} (env : α) :
    ParallelEnv.state env = (env, Except.error PyError.notImplementedError) :=
  rfl

/-- C10: `_remove_dead_agents` is total for any flag dicts: an active agent
absent from the terminations dict or the truncations dict has that flag read
as false by the defaulting lookup and is kept in the active-agents
sequence. -/
theorem removeDeadAgents_defaults_missing_flags (agents : List String)
    (terms truncs : List (String × Bool)) (a : String)
    (ha : a ∈ agents) (hterm : a ∉ dictKeys terms)
    (htrunc : a ∉ dictKeys truncs) :
    dictGet terms a false = false ∧ dictGet truncs a false = false ∧
    a ∈ removeDeadAgents agents terms truncs := by
  have h1 := dictGet_of_not_mem_keys terms a false hterm
  have h2 := dictGet_of_not_mem_keys truncs a false htrunc
  exact ⟨h1, h2, (mem_removeDeadAgents agents terms truncs a).mpr ⟨ha, h1, h2⟩⟩

theorem step_mismatch_error_message_witness :
    ∃ missing extra : List String,
      missing.Sorted (· ≤ ·) ∧
      extra.Sorted (· ≤ ·) ∧
      (∀ a, a ∈ missing ↔ a ∈ SimpleParallelEnv.init.agents ∧
        a ∉ dictKeys [("agent1", "g"), ("agent4", "g")]) ∧
      (∀ a, a ∈ extra ↔ a ∈ dictKeys [("agent1", "g"), ("agent4", "g")] ∧
        a ∉ SimpleParallelEnv.init.agents) ∧
      (missing ≠ [] ∨ extra ≠ []) ∧
      SimpleParallelEnv.init.step [("agent1", "g"), ("agent4", "g")] =
        Except.error (PyError.valueError
          (String.intercalate ". "
            ((if missing.isEmpty then [] else [missingClause missing]) ++
             (if extra.isEmpty then [] else [extraClause extra])))) :=
  step_mismatch_error_message SimpleParallelEnv.init
    [("agent1", "g"), ("agent4", "g")] (by decide)

theorem step_prunes_flagged_agents_witness :
    "agent1" ∈ envAfterTerm.agents ↔
      dictGet termsAfterTerm "agent1" false = false ∧
      dictGet truncsAfterTerm "agent1" false = false :=
  step_prunes_flagged_agents SimpleParallelEnv.init
    envAfterTerm termActions obsAfterTerm rewAfterTerm termsAfterTerm
    truncsAfterTerm infosAfterTerm rfl "agent1" (by decide)

theorem step_result_keys_match_entry_agents_witness :
    ("agent1" ∈ dictKeys obsAfterTerm ↔
      "agent1" ∈ SimpleParallelEnv.init.agents) ∧
    ("agent1" ∈ dictKeys rewAfterTerm ↔
      "agent1" ∈ SimpleParallelEnv.init.agents) ∧
    ("agent1" ∈ dictKeys termsAfterTerm ↔
      "agent1" ∈ SimpleParallelEnv.init.agents) ∧
    ("agent1" ∈ dictKeys truncsAfterTerm ↔
      "agent1" ∈ SimpleParallelEnv.init.agents) ∧
    ("agent1" ∈ dictKeys infosAfterTerm ↔
      "agent1" ∈ SimpleParallelEnv.init.agents) :=
  step_result_keys_match_entry_agents SimpleParallelEnv.init
    envAfterTerm termActions obsAfterTerm rewAfterTerm termsAfterTerm
    truncsAfterTerm infosAfterTerm rfl "agent1"

theorem step_mismatch_fail_fast_witness :
    (∃ e, validateActions (dictKeys [("agent1", "g")])
        SimpleParallelEnv.init.agents = Except.error e ∧
      SimpleParallelEnv.init.step [("agent1", "g")] = Except.error e) ∧
    ∀ out, SimpleParallelEnv.init.step [("agent1", "g")] ≠ Except.ok out :=
  step_mismatch_fail_fast SimpleParallelEnv.init [("agent1", "g")] (by decide)

theorem active_agents_follow_roster_order_witness :
    SimpleParallelEnv.init.agents.Sublist
      SimpleParallelEnv.init.possible_agents :=
  (active_agents_follow_roster_order SimpleParallelEnv.init Reachable.con).1

theorem default_state_raises_not_implemented_witness :
    ParallelEnv.state SimpleParallelEnv.init =
      (SimpleParallelEnv.init, Except.error PyError.notImplementedError) :=
  default_state_raises_not_implemented SimpleParallelEnv.init

theorem removeDeadAgents_defaults_missing_flags_witness :
    dictGet ([] : List (String × Bool)) "agent1" false = false ∧
    dictGet [("agent9", true)] "agent1" false = false ∧
    "agent1" ∈ removeDeadAgents ["agent1"] [] [("agent9", true)] :=
  removeDeadAgents_defaults_missing_flags ["agent1"] [] [("agent9", true)]
    "agent1" (by decide) (by decide) (by decide)
